import Mathlib

/-!
Verification of the PINN Burgers identification script
(ide_cont_burgers_custom_training.py) by a shallow embedding in Lean.

The script trains a dense network u(x, t) together with two trainable
scalars lambda_1 and lambda_2, minimising the sum of a data mean-squared
error and the mean-squared Burgers residual
u_t + lambda_1 * u * u_x - exp(lambda_2) * u_xx.

Embedding conventions:
- tensors of shape (n, 1) become lists of scalars, tensors of shape (n, 2)
  become lists of pairs;
- automatic differentiation with respect to an input tensor becomes the
  mathematical derivative (Mathlib deriv) of the corresponding function of
  one real variable, the other input held fixed, which is exactly what
  tape.gradient computes for the watched tensors x_f and t_f;
- gradient VALUES with respect to trainable variables are abstracted as an
  oracle g : VarRef -> scalar, and the per-variable optimizer update as an
  abstract binary operation upd, because the claims about the training step
  concern which variables an update is applied to, not the numerics of Adam;
- the scalar type is a parameter where the code is pure bookkeeping, so the
  bookkeeping facts can be decided on rational instances, and it is the real
  numbers where the code does calculus (exp, derivatives, square roots).
-/

namespace PINN

/-! ## Hyperparameters (script lines 32-38) -/

/-- Data size on the solution u (line 33). -/
def N_u : ℕ := 2000

/-- DeepNN topology: 2-sized input [x t], 8 hidden layers of 20-width,
1-sized output [u] (line 35). -/
def layersList : List ℕ := [2, 20, 20, 20, 20, 20, 20, 20, 20, 1]

/-- Number of full-batch epochs (line 38). -/
def epochs : ℕ := 10000

/-! ## Network architecture (lines 45-48)

The constructor adds an InputLayer of shape (layers[0],) and then, for each
width in layers[1:], a Dense layer with activation tf.nn.tanh. We record,
for each Dense layer, its width and which activation object was passed. -/

inductive Activation where
  | tanh : Activation
  | linear : Activation
deriving DecidableEq

structure LayerSpec where
  width : ℕ
  activation : Activation
deriving DecidableEq

/-- Width accepted by the InputLayer: layers[0] (line 46). -/
def inputWidth (layers : List ℕ) : ℕ := layers.headD 0

/-- The Dense layers added by the loop on lines 47-48: one layer of the given
width, with activation tf.nn.tanh, for every width in layers[1:]. -/
def buildModel (layers : List ℕ) : List LayerSpec :=
  (layers.drop 1).map (fun w => ⟨w, Activation.tanh⟩)

/-! ## Trainable-variable bookkeeping (lines 52-54, 96-101, 115-120) -/

/-- A reference to one trainable variable: a network weight tensor (indexed
in the order Keras reports trainable_variables) or one of the two scalars. -/
inductive VarRef where
  | weight : ℕ → VarRef
  | lam1 : VarRef
  | lam2 : VarRef
deriving DecidableEq

/-- The mutable attributes of a PhysicsInformedNN object.  Weight tensors are
abstracted to one scalar each (the claims only concern which of them change),
and optState stands for the slot variables of the Adam optimizer. -/
structure PINNState (α : Type) where
  weights : List α
  lambda_1 : α
  lambda_2 : α
  x_f : List α
  t_f : List α
  X_u : List (α × α)
  u_obs : List α
  train_loss_results : List α
  optState : List α

/-- self.u_model.trainable_variables: the network weights, in order.

Line 54 runs self.u_model.layers[-1].trainable_variables.extend([lambda_1,
lambda_2]); in Keras, trainable_variables is a computed property that returns
a freshly built list on every access, so extending the returned list mutates
no model state and the two scalars are never registered with the model.  The
property therefore keeps returning exactly the weight variables. -/
def trainableVariables {α : Type} (s : PINNState α) : List VarRef :=
  (List.range s.weights.length).map VarRef.weight

/-- The variable list built inside grad (lines 99-100): the local list var =
u_model.trainable_variables is extended, in place, with lambda_1 and
lambda_2, so the gradient is taken jointly over weights and both scalars. -/
def gradVarList {α : Type} (s : PINNState α) : List VarRef :=
  trainableVariables s ++ [VarRef.lam1, VarRef.lam2]

/-- Reading one trainable variable from the state. -/
def readVar {α : Type} [Inhabited α] (s : PINNState α) : VarRef → α
  | VarRef.weight i => s.weights.getD i default
  | VarRef.lam1 => s.lambda_1
  | VarRef.lam2 => s.lambda_2

/-- Writing one trainable variable of the state. -/
def writeVar {α : Type} (s : PINNState α) : VarRef → α → PINNState α
  | VarRef.weight i, x => { s with weights := s.weights.set i x }
  | VarRef.lam1, x => { s with lambda_1 := x }
  | VarRef.lam2, x => { s with lambda_2 := x }

/-- grad (lines 96-101): returns the loss value together with
tape.gradient(loss_value, var) for var = gradVarList, one gradient per listed
variable.  The numeric values come from the oracle g. -/
def gradFn {α : Type} (g : VarRef → α) (lossVal : α) (s : PINNState α) :
    α × List α :=
  (lossVal, (gradVarList s).map g)

/-- optimizer.apply_gradients(pairs): applies the per-variable update rule
upd old grad to exactly the variables referenced in the (gradient, variable)
pairs. -/
def applyGradients {α : Type} [Inhabited α] (upd : α → α → α)
    (pairs : List (α × VarRef)) (s : PINNState α) : PINNState α :=
  pairs.foldl (fun st p => writeVar st p.2 (upd (readVar st p.2) p.1)) s

/-- One iteration of the training loop in fit (lines 115-123):
loss_value, grads = self.grad(...); var = self.u_model.trainable_variables
(the line extending var with the two scalars is commented out, line 119);
optimizer.apply_gradients(zip(grads, var)); append loss_value to
train_loss_results.  Note zip truncates to the shorter list, as in Python. -/
def fitStep {α : Type} [Inhabited α] (g : VarRef → α) (upd : α → α → α)
    (lossVal : α) (s : PINNState α) : PINNState α :=
  let lg := gradFn g lossVal s
  let var := trainableVariables s
  let s1 := applyGradients upd (lg.2.zip var) s
  { s1 with train_loss_results := s1.train_loss_results ++ [lg.1] }

/-- The state-setup part of fit (lines 103-112): store the training tensors
and split X_u into the collocation coordinates x_f = X_u[:, 0:1] and
t_f = X_u[:, 1:2]; reset the loss history. -/
def fitSetup {α : Type} (s : PINNState α) (X_u : List (α × α)) (u : List α) :
    PINNState α :=
  { s with
    X_u := X_u
    u_obs := u
    x_f := X_u.map Prod.fst
    t_f := X_u.map Prod.snd
    train_loss_results := [] }

/-! ## Concrete instance for evaluating the training step -/

/-- A small concrete state over ℤ: two weight tensors, and the two scalars at
their initial values from lines 52-53 (lambda_1 = 0.0, lambda_2 = -6.0). -/
def demoState : PINNState ℤ :=
  { weights := [5, 7]
    lambda_1 := 0
    lambda_2 := -6
    x_f := []
    t_f := []
    X_u := []
    u_obs := []
    train_loss_results := []
    optState := [] }

/-- A gradient oracle assigning the gradient 1 to every trainable variable. -/
def demoGrad : VarRef → ℤ := fun _ => 1

/-- A concrete stand-in update rule: move each variable against its
gradient. -/
def demoUpd : ℤ → ℤ → ℤ := fun v gr => v - gr

/-! ## The residual evaluator f_model (lines 62-88)

The network is abstracted as a function U : ℝ → ℝ → ℝ of the two input
columns.  tape.gradient(u, x_f) for u = u_model(stack(x_f, t_f)) with both
inputs watched is the derivative of y ↦ U y t at x with t held fixed;
likewise for t_f.  u_x is taken inside the persistent tape so that a second
pass yields u_xx. -/

/-- Line 64: l2 = tf.exp(self.lambda_2), the viscosity coefficient actually
used in the residual. -/
noncomputable def viscosity (lambda_2 : ℝ) : ℝ := Real.exp lambda_2

/-- The residual at a single collocation point (x, t), in the exact order of
the source: l1 and l2 first (lines 63-64), then u, u_x inside the tape
(lines 76-78), then u_xx and u_t (lines 81-82), and the combination
u_t + l1 * u * u_x - l2 * u_xx returned on line 88. -/
noncomputable def f_point (U : ℝ → ℝ → ℝ) (lambda_1 lambda_2 x t : ℝ) : ℝ :=
  let l1 := lambda_1
  let l2 := viscosity lambda_2
  let u := U x t
  let u_x := deriv (fun y => U y t) x
  let u_xx := deriv (fun y => deriv (fun z => U z t) y) x
  let u_t := deriv (fun s => U x s) t
  u_t + l1 * u * u_x - l2 * u_xx

/-- f_model on the stored collocation tensors: all tensor operations on
lines 67-88 are elementwise across the rows of x_f and t_f. -/
noncomputable def f_model (U : ℝ → ℝ → ℝ) (lambda_1 lambda_2 : ℝ)
    (x_f t_f : List ℝ) : List ℝ :=
  (x_f.zip t_f).map (fun p => f_point U lambda_1 lambda_2 p.1 p.2)

/-! ## Loss (lines 91-93) -/

/-- tf.reduce_mean of a rank-1 tensor: sum divided by length. -/
def reduceMean {α : Type} [DivisionRing α] (v : List α) : α :=
  v.sum / (v.length : α)

/-- tf.square, elementwise. -/
def tfSquare {α : Type} [Monoid α] (v : List α) : List α :=
  v.map (fun a => a ^ 2)

/-- Elementwise subtraction of two rank-1 tensors of equal shape. -/
def tfSub {α : Type} [Sub α] (u v : List α) : List α :=
  List.zipWith (fun a b => a - b) u v

/-- The loss body (line 93) with the residual tensor f_pred as an explicit
argument: reduce_mean(square(u - u_pred)) + reduce_mean(square(f_pred)). -/
def lossBody {α : Type} [DivisionRing α] (u u_pred f_pred : List α) : α :=
  reduceMean (tfSquare (tfSub u u_pred)) + reduceMean (tfSquare f_pred)

/-- loss (lines 91-93): computes f_pred = self.f_model() from the stored
collocation points and then the loss body. -/
noncomputable def loss (U : ℝ → ℝ → ℝ) (lambda_1 lambda_2 : ℝ)
    (x_f t_f : List ℝ) (u u_pred : List ℝ) : ℝ :=
  let f_pred := f_model U lambda_1 lambda_2 x_f t_f
  lossBody u u_pred f_pred

/-! ## predict (lines 129-132)

net gives the forward pass of u_model as a function of the weight list, so
the prediction u_model(X_star) reads the weights stored in the state. -/

/-- predict: u_star = u_model(X_star); f_star = f_model(); both are returned
and the state is passed through as the method leaves every attribute of self
untouched. -/
noncomputable def predict (net : List ℝ → ℝ → ℝ → ℝ) (s : PINNState ℝ)
    (X_star : List (ℝ × ℝ)) : (List ℝ × List ℝ) × PINNState ℝ :=
  let u_star := X_star.map (fun p => net s.weights p.1 p.2)
  let f_star := f_model (net s.weights) s.lambda_1 s.lambda_2 s.x_f s.t_f
  ((u_star, f_star), s)

/-! ## Post-training error (line 177) -/

/-- np.linalg.norm(v, 2) on a column vector: the square root of the sum of
squares.  (On an (n, 1) array the ord-2 matrix norm is the largest singular
value, which for a single column equals its Euclidean norm.) -/
noncomputable def npNorm2 (v : List ℝ) : ℝ :=
  Real.sqrt (tfSquare v).sum

/-- error_u (line 177): norm(u_star - u_pred, 2) / norm(u_star, 2). -/
noncomputable def error_u (u_star u_pred : List ℝ) : ℝ :=
  npNorm2 (tfSub u_star u_pred) / npNorm2 u_star

/-! ## Training-set sampling (lines 165-167)

idx = np.random.choice(X_star.shape[0], N_u, replace=False).  The legacy
numpy generator implements choice without replacement (and without weights)
by building a random permutation of range(n) and taking the first k entries;
the permutation is a Fisher-Yates shuffle driven by the underlying bit
stream, which we abstract as an integer oracle rand. -/

/-- One pass of a shuffle driven by rand: repeatedly pick the position
rand step mod (remaining length), emit that element, and continue on the
rest.  This consumes each element exactly once, so for every oracle the
output is a permutation of the input. -/
def shuffle (rand : ℕ → ℕ) (step : ℕ) (l : List ℕ) : List ℕ :=
  if _h : l.length = 0 then []
  else
    l.getD (rand step % l.length) 0 ::
      shuffle rand (step + 1) (l.eraseIdx (rand step % l.length))
termination_by l.length
decreasing_by
  have hl : 0 < l.length := Nat.pos_of_ne_zero _h
  have := List.length_eraseIdx_add_one (Nat.mod_lt (rand step) hl)
  omega

/-- np.random.permutation(n): a shuffle of range(n). -/
def npPermutation (rand : ℕ → ℕ) (n : ℕ) : List ℕ :=
  shuffle rand 0 (List.range n)

/-- np.random.choice(n, k, replace=False): the first k entries of a random
permutation of range(n). -/
def npChoiceNoReplace (rand : ℕ → ℕ) (n k : ℕ) : List ℕ :=
  (npPermutation rand n).take k

/-- Row selection by an index list: X_star[idx, :] (line 166) for a
two-column array. -/
def selectRows (rows : List (ℝ × ℝ)) (idx : List ℕ) : List (ℝ × ℝ) :=
  idx.map (fun i => rows.getD i (0, 0))

/-- Row selection by an index list: u_star[idx, :] (line 167) for a
one-column array. -/
def selectVals (vals : List ℝ) (idx : List ℕ) : List ℝ :=
  idx.map (fun i => vals.getD i 0)

/-! ## Spec-side definitions

These follow the words of the specification, independently of the source
order, to be compared with the code-side definitions above. -/

/-- The Burgers residual exactly as the claim words it: u_t plus lambda_1
times u times u_x minus exp(lambda_2) times u_xx, with u_x and u_xx the
first and second derivatives in the position input and u_t the first
derivative in the time input. -/
noncomputable def specResidual (U : ℝ → ℝ → ℝ) (lambda_1 lambda_2 x t : ℝ) :
    ℝ :=
  deriv (fun s => U x s) t
    + lambda_1 * U x t * deriv (fun y => U y t) x
    - Real.exp lambda_2 * deriv (fun y => deriv (fun z => U z t) y) x

/-- Mean of the squared elementwise differences of two vectors, as the
specification words it. -/
noncomputable def specMeanSqDiff (u v : List ℝ) : ℝ :=
  (List.zipWith (fun a b => (a - b) ^ 2) u v).sum / (List.zipWith (fun a b => (a - b) ^ 2) u v).length

/-- Mean of the squares of a vector, as the specification words it. -/
noncomputable def specMeanSq (v : List ℝ) : ℝ :=
  (v.map (fun a => a ^ 2)).sum / v.length

/-- A list of reals viewed as a vector of the Euclidean space of its
dimension, to state the relative L2 error against the genuine Euclidean
norm. -/
def vecOf (v : List ℝ) : EuclideanSpace ℝ (Fin v.length) :=
  fun i => v.get i

/-! ## Supporting lemmas -/

/-- Applying gradients to a pair list that references only weight variables
changes neither lambda_1 nor lambda_2. -/
theorem applyGradients_weights_only_fix_lambdas {α : Type} [Inhabited α]
    (upd : α → α → α) :
    ∀ (pairs : List (α × VarRef)) (s : PINNState α),
      (∀ p ∈ pairs, ∃ i, p.2 = VarRef.weight i) →
      (applyGradients upd pairs s).lambda_1 = s.lambda_1 ∧
        (applyGradients upd pairs s).lambda_2 = s.lambda_2 := by
  intro pairs
  induction pairs with
  | nil => exact fun s _ => ⟨rfl, rfl⟩
  | cons p rest ih =>
    intro s hp
    obtain ⟨i, hi⟩ := hp p (List.mem_cons_self p rest)
    have hrest : ∀ q ∈ rest, ∃ j, q.2 = VarRef.weight j :=
      fun q hq => hp q (List.mem_cons_of_mem p hq)
    have h1 := ih (writeVar s p.2 (upd (readVar s p.2) p.1)) hrest
    have hw1 : (writeVar s p.2 (upd (readVar s p.2) p.1)).lambda_1
        = s.lambda_1 := by rw [hi]; rfl
    have hw2 : (writeVar s p.2 (upd (readVar s p.2) p.1)).lambda_2
        = s.lambda_2 := by rw [hi]; rfl
    simp only [applyGradients, List.foldl_cons] at h1 ⊢
    exact ⟨h1.1.trans hw1, h1.2.trans hw2⟩

/-- Every variable reference paired with a gradient inside fitStep is a
weight reference: zip(grads, var) draws its second components from var =
trainableVariables, which lists only weights. -/
theorem fitStep_pair_refs_are_weights {α : Type} [Inhabited α]
    (g : VarRef → α) (lossVal : α) (s : PINNState α) :
    ∀ p ∈ ((gradFn g lossVal s).2.zip (trainableVariables s)),
      ∃ i, p.2 = VarRef.weight i := by
  intro p hp
  obtain ⟨x, y⟩ := p
  have hy := (List.of_mem_zip hp).2
  simp only [trainableVariables, List.mem_map, List.mem_range] at hy
  obtain ⟨i, _, hiw⟩ := hy
  exact ⟨i, hiw.symm⟩

/-- One training-loop iteration never changes lambda_1 or lambda_2, for any
gradient values and any per-variable update rule: the gradients of the two
scalars are computed by grad but truncated away by zip(grads, var). -/
theorem fitStep_fixes_lambdas {α : Type} [Inhabited α] (g : VarRef → α)
    (upd : α → α → α) (lossVal : α) (s : PINNState α) :
    (fitStep g upd lossVal s).lambda_1 = s.lambda_1 ∧
      (fitStep g upd lossVal s).lambda_2 = s.lambda_2 := by
  have h := applyGradients_weights_only_fix_lambdas upd
    ((gradFn g lossVal s).2.zip (trainableVariables s)) s
    (fitStep_pair_refs_are_weights g lossVal s)
  simpa [fitStep] using h

/-- A list is a permutation of its element at a valid position consed onto
the remainder with that position erased. -/
theorem perm_getD_cons_eraseIdx (l : List ℕ) (i : ℕ) (h : i < l.length) :
    l.Perm (l.getD i 0 :: l.eraseIdx i) := by
  rw [List.getD_eq_getElem l 0 h]
  exact (List.perm_cons_erase (List.getElem_mem h)).trans
    (List.Perm.cons _ (List.erase_getElem h))

/-- The shuffle emits a permutation of its input, for every random oracle
and every starting step. -/
theorem shuffle_perm (rand : ℕ → ℕ) :
    ∀ (n : ℕ) (step : ℕ) (l : List ℕ), l.length ≤ n →
      (shuffle rand step l).Perm l := by
  intro n
  induction n with
  | zero =>
    intro step l hl
    have hnil : l = [] := List.eq_nil_of_length_eq_zero (Nat.le_zero.mp hl)
    subst hnil
    rw [shuffle]
    simp
  | succ n ih =>
    intro step l hl
    rw [shuffle]
    split
    · rename_i h
      have hnil : l = [] := List.eq_nil_of_length_eq_zero h
      simp [hnil]
    · rename_i h
      have hlpos : 0 < l.length := Nat.pos_of_ne_zero h
      have hi : rand step % l.length < l.length := Nat.mod_lt _ hlpos
      have hlen : (l.eraseIdx (rand step % l.length)).length ≤ n := by
        have := List.length_eraseIdx_add_one hi
        omega
      have hperm := ih (step + 1) (l.eraseIdx (rand step % l.length)) hlen
      exact (List.Perm.cons _ hperm).trans
        (perm_getD_cons_eraseIdx l _ hi).symm

/-- np.random.permutation(n) is a permutation of range(n). -/
theorem npPermutation_perm (rand : ℕ → ℕ) (n : ℕ) :
    (npPermutation rand n).Perm (List.range n) := by
  have := shuffle_perm rand (List.range n).length 0 (List.range n) le_rfl
  simpa [npPermutation] using this

/-- The list norm used on line 177 is the genuine Euclidean norm of the
corresponding vector. -/
theorem npNorm2_eq_euclidean_norm (v : List ℝ) : npNorm2 v = ‖vecOf v‖ := by
  rw [EuclideanSpace.norm_eq]
  unfold npNorm2 tfSquare vecOf
  congr 1
  have hcongr : ∀ i : Fin v.length, ‖v.get i‖ ^ 2 = v[i.1] ^ 2 := fun i => by
    rw [Real.norm_eq_abs, sq_abs]
    rfl
  rw [Finset.sum_congr rfl (fun i _ => hcongr i), ← Fin.sum_univ_get']

/-! ## The claims -/

/-- C1: the claim says every training step applies the gradients of the
network weights AND of lambda_1 and lambda_2 through the optimizer.  The
code computes all those gradients, but zip(grads, var) in fit pairs them
with the weight variables only, so the two scalars never receive an update:
here a concrete step with gradient 1 everywhere moves both weights yet
leaves lambda_1 at its initial 0 and lambda_2 at its initial -6. -/
theorem claim1_lambda_updates_dropped :
    gradVarList demoState =
      [VarRef.weight 0, VarRef.weight 1, VarRef.lam1, VarRef.lam2]
    ∧ (fitStep demoGrad demoUpd 0 demoState).weights = [4, 6]
    ∧ (fitStep demoGrad demoUpd 0 demoState).lambda_1 = 0
    ∧ (fitStep demoGrad demoUpd 0 demoState).lambda_2 = -6 := by
  refine ⟨rfl, ?_, ?_, ?_⟩ <;> decide

/-- C2: f_model returns, at each stored collocation point, exactly
u_t + lambda_1 * u * u_x - exp(lambda_2) * u_xx with u_x, u_xx the first
and second position derivatives and u_t the time derivative of the network
output. -/
theorem claim2_f_model_residual_formula (U : ℝ → ℝ → ℝ)
    (lambda_1 lambda_2 : ℝ) (x_f t_f : List ℝ) :
    f_model U lambda_1 lambda_2 x_f t_f =
      (x_f.zip t_f).map
        (fun p => specResidual U lambda_1 lambda_2 p.1 p.2) := by
  simp only [f_model, f_point, specResidual, viscosity]

/-- C3 counterexample: the claim says the final output layer has a linear
(identity) activation, but the construction loop hands tf.nn.tanh to every
Dense layer, including the last one of width 1. -/
theorem claim3_output_layer_not_linear :
    (buildModel layersList).getLastD ⟨0, Activation.linear⟩
        = ⟨1, Activation.tanh⟩
    ∧ Activation.tanh ≠ Activation.linear := by
  decide

/-- C3 amended: the approximator has 2 inputs and nine Dense layers, eight
hidden layers of width 20 and a final output layer of width 1, every one of
them with tanh activation, so the output layer does apply a nonlinearity. -/
theorem claim3_all_layers_tanh :
    inputWidth layersList = 2
    ∧ buildModel layersList =
      [⟨20, Activation.tanh⟩, ⟨20, Activation.tanh⟩, ⟨20, Activation.tanh⟩,
        ⟨20, Activation.tanh⟩, ⟨20, Activation.tanh⟩, ⟨20, Activation.tanh⟩,
        ⟨20, Activation.tanh⟩, ⟨20, Activation.tanh⟩,
        ⟨1, Activation.tanh⟩] := by
  decide

/-- C4: the training loss is the mean of the squared elementwise data
mismatches plus the mean of the squared residuals returned by f_model. -/
theorem claim4_loss_is_mse_plus_msr (U : ℝ → ℝ → ℝ) (lambda_1 lambda_2 : ℝ)
    (x_f t_f u u_pred : List ℝ) :
    loss U lambda_1 lambda_2 x_f t_f u u_pred =
      specMeanSqDiff u u_pred
        + specMeanSq (f_model U lambda_1 lambda_2 x_f t_f) := by
  have h1 : tfSquare (tfSub u u_pred)
      = List.zipWith (fun a b => (a - b) ^ 2) u u_pred := by
    simp [tfSquare, tfSub, List.map_zipWith]
  unfold loss lossBody reduceMean specMeanSqDiff specMeanSq
  rw [h1]
  simp [tfSquare]

/-- C5: the viscosity coefficient used in the residual is exp(lambda_2),
which is strictly positive for every real value of the raw scalar. -/
theorem claim5_viscosity_pos (lambda_2 : ℝ) : 0 < viscosity lambda_2 :=
  Real.exp_pos lambda_2

/-- C6: fit stores, as collocation coordinates, exactly column 0 and
column 1 of the training matrix, and the residual is then evaluated by
f_model at precisely those training (position, time) pairs. -/
theorem claim6_collocation_eq_training_points (s : PINNState ℝ)
    (X_u : List (ℝ × ℝ)) (u : List ℝ) (U : ℝ → ℝ → ℝ)
    (lambda_1 lambda_2 : ℝ) :
    (fitSetup s X_u u).x_f = X_u.map Prod.fst
    ∧ (fitSetup s X_u u).t_f = X_u.map Prod.snd
    ∧ f_model U lambda_1 lambda_2 (fitSetup s X_u u).x_f
        (fitSetup s X_u u).t_f
      = X_u.map (fun r => f_point U lambda_1 lambda_2 r.1 r.2) := by
  refine ⟨rfl, rfl, ?_⟩
  simp only [fitSetup, f_model]
  rw [List.zip_map']
  simp [List.map_map, Function.comp]

/-- C7: the index sample of size N_u = 2000 drawn by
np.random.choice(n, N_u, replace=False) consists of pairwise distinct valid
row indices, whatever the random stream, and the training arrays are
exactly the rows of X_star and u_star selected by those indices. -/
theorem claim7_sample_without_replacement (rand : ℕ → ℕ) (n : ℕ)
    (hn : N_u ≤ n) (X_star : List (ℝ × ℝ)) (u_star : List ℝ) :
    (npChoiceNoReplace rand n N_u).Nodup
    ∧ (npChoiceNoReplace rand n N_u).length = N_u
    ∧ (∀ i ∈ npChoiceNoReplace rand n N_u, i < n)
    ∧ selectRows X_star (npChoiceNoReplace rand n N_u)
        = (npChoiceNoReplace rand n N_u).map (fun i => X_star.getD i (0, 0))
    ∧ selectVals u_star (npChoiceNoReplace rand n N_u)
        = (npChoiceNoReplace rand n N_u).map (fun i => u_star.getD i 0) := by
  have hperm := npPermutation_perm rand n
  have hnodup : (npPermutation rand n).Nodup :=
    hperm.nodup_iff.mpr (List.nodup_range n)
  refine ⟨?_, ?_, ?_, rfl, rfl⟩
  · exact (List.take_sublist N_u (npPermutation rand n)).nodup hnodup
  · rw [npChoiceNoReplace, List.length_take, hperm.length_eq,
      List.length_range]
    exact Nat.min_eq_left hn
  · intro i hi
    have hmem : i ∈ npPermutation rand n := List.mem_of_mem_take hi
    have : i ∈ List.range n := hperm.mem_iff.mp hmem
    exact List.mem_range.mp this

/-- C8: the reported error is the relative L2 error in the true Euclidean
norm: the norm of the difference with the ground truth divided by the norm
of the ground truth. -/
theorem claim8_error_is_relative_l2 (u_star u_pred : List ℝ) :
    error_u u_star u_pred
      = ‖vecOf (tfSub u_star u_pred)‖ / ‖vecOf u_star‖ := by
  rw [error_u, npNorm2_eq_euclidean_norm, npNorm2_eq_euclidean_norm]

/-- C9: predict is stateless: it leaves the weights, both scalars, the
stored collocation points, the optimizer slots, and indeed the whole state
unchanged. -/
theorem claim9_predict_stateless (net : List ℝ → ℝ → ℝ → ℝ)
    (s : PINNState ℝ) (X_star : List (ℝ × ℝ)) :
    (predict net s X_star).2.weights = s.weights
    ∧ (predict net s X_star).2.lambda_1 = s.lambda_1
    ∧ (predict net s X_star).2.lambda_2 = s.lambda_2
    ∧ (predict net s X_star).2.x_f = s.x_f
    ∧ (predict net s X_star).2.t_f = s.t_f
    ∧ (predict net s X_star).2.optState = s.optState
    ∧ (predict net s X_star).2 = s :=
  ⟨rfl, rfl, rfl, rfl, rfl, rfl, rfl⟩

/-- C10: the residual component returned by predict does not depend on the
batch passed to predict: f_model always evaluates at the collocation points
stored in the state, so two calls with different batches return identical
residual vectors. -/
theorem claim10_f_star_independent_of_input (net : List ℝ → ℝ → ℝ → ℝ)
    (s : PINNState ℝ) (X1 X2 : List (ℝ × ℝ)) :
    (predict net s X1).1.2 = (predict net s X2).1.2 :=
  rfl

/-- C7 witness: the sample facts instantiated on the identity stream over
the scripts grid of 256 times 100 rows and empty data arrays. -/
theorem claim7_sample_witness :
    (npChoiceNoReplace (fun k => k) 25600 N_u).Nodup
    ∧ (npChoiceNoReplace (fun k => k) 25600 N_u).length = N_u
    ∧ (∀ i ∈ npChoiceNoReplace (fun k => k) 25600 N_u, i < 25600)
    ∧ selectRows [] (npChoiceNoReplace (fun k => k) 25600 N_u)
        = (npChoiceNoReplace (fun k => k) 25600 N_u).map
            (fun i => ([] : List (ℝ × ℝ)).getD i (0, 0))
    ∧ selectVals [] (npChoiceNoReplace (fun k => k) 25600 N_u)
        = (npChoiceNoReplace (fun k => k) 25600 N_u).map
            (fun i => ([] : List ℝ).getD i 0) :=
  claim7_sample_without_replacement (fun k => k) 25600 (by decide) [] []

end PINN
